import Mathlib

/-!
Verification of the ThemeRemoteConfig repository: a React Native dynamic
theme system backed by Firebase Remote Config with AsyncStorage caching.

The embedding models:
- JSON documents (`Js`) as produced by `JSON.parse` / consumed by
  `JSON.stringify`, with an executable serializer and parser over `Char`
  lists (numbers are modelled as integers, which covers every document the
  repository manipulates; the parser accepts the two escapes `\"` and `\\`
  that the serializer emits and is otherwise lenient in ways no claim
  depends on);
- the `Theme` data model and `DEFAULT_THEME` constant from
  `src/theme/types.ts`;
- `RemoteConfigService` (`initialize`, `fetchTheme`, `cacheTheme`,
  `getCachedTheme`) from `src/services/remoteConfig.ts` as state-passing
  functions over an explicit environment describing the outcome of each
  external call (Firebase Remote Config, AsyncStorage);
- `ThemeProvider.refreshTheme` from `src/theme/ThemeContext.tsx`;
- an interleaving model of concurrent `initialize()` calls.
-/

/-- A JavaScript value as produced by `JSON.parse`: null, boolean, number
(modelled as an integer), string, array, or object (field list in textual
order). -/
inductive Js where
  | null : Js
  | bool : Bool → Js
  | num : Int → Js
  | str : String → Js
  | arr : List Js → Js
  | obj : List (String × Js) → Js
deriving Repr

/-- The decimal digit character for `d < 10`. -/
def digitChar (d : Nat) : Char :=
  match d with
  | 0 => '0' | 1 => '1' | 2 => '2' | 3 => '3' | 4 => '4'
  | 5 => '5' | 6 => '6' | 7 => '7' | 8 => '8' | _ => '9'

/-- Fueled digit expansion; the fuel only needs to exceed the number. -/
def natToCharsAux : Nat → Nat → List Char
  | 0, _ => []
  | fuel + 1, n =>
    if n < 10 then [digitChar n]
    else natToCharsAux fuel (n / 10) ++ [digitChar (n % 10)]

/-- Decimal digits of `n`, most significant first (`JSON.stringify` of a
non-negative integer). -/
def natToChars (n : Nat) : List Char := natToCharsAux (n + 1) n

/-- Serialization of an integer (`JSON.stringify` of a number). -/
def intToChars (n : Int) : List Char :=
  if n < 0 then '-' :: natToChars n.natAbs else natToChars n.natAbs

/-- String-body escaping performed by `JSON.stringify`: quote and backslash
are escaped (the only escapes the repository's documents can need). -/
def escapeChars : List Char → List Char
  | [] => []
  | c :: cs =>
    if c = '"' ∨ c = '\\' then '\\' :: c :: escapeChars cs
    else c :: escapeChars cs

/-- Characters of a JSON string literal including the delimiting quotes. -/
def strLitChars (s : String) : List Char :=
  '"' :: (escapeChars s.data ++ ['"'])

/-- Text of the JSON literal `null`. -/
def nullChars : List Char := ['n', 'u', 'l', 'l']

/-- Text of the JSON literal `true`. -/
def trueChars : List Char := ['t', 'r', 'u', 'e']

/-- Text of the JSON literal `false`. -/
def falseChars : List Char := ['f', 'a', 'l', 's', 'e']

mutual

/-- Characters emitted by `JSON.stringify` for a value. -/
def stringifyV : Js → List Char
  | .null => nullChars
  | .bool b => if b then trueChars else falseChars
  | .num n => intToChars n
  | .str s => strLitChars s
  | .arr xs => '[' :: (stringifyElems xs ++ [']'])
  | .obj fs => '{' :: (stringifyMembers fs ++ ['}'])

/-- Comma-separated serialization of array elements (no delimiters). -/
def stringifyElems : List Js → List Char
  | [] => []
  | x :: xs =>
    stringifyV x ++ (match xs with
      | [] => []
      | _ :: _ => ',' :: stringifyElems xs)

/-- Comma-separated serialization of object members (no delimiters). -/
def stringifyMembers : List (String × Js) → List Char
  | [] => []
  | (k, v) :: fs =>
    strLitChars k ++ ':' :: stringifyV v ++ (match fs with
      | [] => []
      | _ :: _ => ',' :: stringifyMembers fs)

end

/-- Lean-level rendering of `JSON.stringify`. -/
def jsonStringify (v : Js) : String := ⟨stringifyV v⟩

/-- Whether a character is a decimal digit. -/
def isDigitChar (c : Char) : Bool := 48 ≤ c.toNat && c.toNat ≤ 57

/-- Numeric value of a list of digit characters (most significant first). -/
def digitsToNat (ds : List Char) : Nat :=
  ds.foldl (fun a c => a * 10 + (c.toNat - 48)) 0

/-- Splits off the maximal prefix of digit characters. -/
def digitSpan : List Char → List Char × List Char
  | [] => ([], [])
  | c :: cs =>
    if isDigitChar c then
      let (ds, rest) := digitSpan cs
      (c :: ds, rest)
    else ([], c :: cs)

/-- Parses a JSON number (integer syntax); fails if no digit is present. -/
def parseNum (input : List Char) : Option (Int × List Char) :=
  match input with
  | [] => none
  | c :: cs =>
    if c = '-' then
      match digitSpan cs with
      | ([], _) => none
      | (d :: ds, rest) => some (-(digitsToNat (d :: ds) : Int), rest)
    else
      match digitSpan (c :: cs) with
      | ([], _) => none
      | (d :: ds, rest) => some ((digitsToNat (d :: ds) : Int), rest)

/-- Parses the body of a JSON string literal after the opening quote, up to
and including the closing quote; understands the `\"` and `\\` escapes. -/
def parseStrBody (input : List Char) : Option (List Char × List Char) :=
  match input with
  | [] => none
  | c :: cs =>
    if c = '"' then some ([], cs)
    else if c = '\\' then
      match cs with
      | [] => none
      | e :: cs2 =>
        if e = '"' ∨ e = '\\' then
          match parseStrBody cs2 with
          | some (s, rest) => some (e :: s, rest)
          | none => none
        else none
    else
      match parseStrBody cs with
      | some (s, rest) => some (c :: s, rest)
      | none => none

/-- Continuation of the literal `null` after its leading `n`. -/
def parseNullTail : List Char → Option (Js × List Char)
  | 'u' :: 'l' :: 'l' :: rest => some (.null, rest)
  | _ => none

/-- Continuation of the literal `true` after its leading `t`. -/
def parseTrueTail : List Char → Option (Js × List Char)
  | 'r' :: 'u' :: 'e' :: rest => some (.bool true, rest)
  | _ => none

/-- Continuation of the literal `false` after its leading `f`. -/
def parseFalseTail : List Char → Option (Js × List Char)
  | 'a' :: 'l' :: 's' :: 'e' :: rest => some (.bool false, rest)
  | _ => none

/-- String literal continuation after the opening quote. -/
def parseStrLit (cs : List Char) : Option (Js × List Char) :=
  match parseStrBody cs with
  | some (s, rest) => some (.str ⟨s⟩, rest)
  | none => none

/-- A number at the head of the input. -/
def parseNumV (input : List Char) : Option (Js × List Char) :=
  match parseNum input with
  | some (n, rest) => some (.num n, rest)
  | none => none

mutual

/-- Fueled recursive-descent JSON value parser (the model of `JSON.parse`,
which throws exactly when this returns `none`). -/
def parseV : Nat → List Char → Option (Js × List Char)
  | 0, _ => none
  | _ + 1, [] => none
  | fuel + 1, c :: cs =>
    if c = 'n' then parseNullTail cs
    else if c = 't' then parseTrueTail cs
    else if c = 'f' then parseFalseTail cs
    else if c = '"' then parseStrLit cs
    else if c = '[' then
      if cs.head? = some ']' then some (.arr [], cs.tail)
      else
        match parseElems fuel cs with
        | some (xs, rest) => some (.arr xs, rest)
        | none => none
    else if c = '{' then
      if cs.head? = some '}' then some (.obj [], cs.tail)
      else
        match parseMembers fuel cs with
        | some (fs, rest) => some (.obj fs, rest)
        | none => none
    else parseNumV (c :: cs)

/-- Parses one or more comma-separated array elements, consuming the
closing bracket. -/
def parseElems : Nat → List Char → Option (List Js × List Char)
  | 0, _ => none
  | fuel + 1, input =>
    match parseV fuel input with
    | some (v, rest) =>
      match rest with
      | ',' :: rest2 =>
        match parseElems fuel rest2 with
        | some (xs, rest3) => some (v :: xs, rest3)
        | none => none
      | ']' :: rest2 => some ([v], rest2)
      | _ => none
    | none => none

/-- Parses one or more comma-separated object members, consuming the
closing brace. -/
def parseMembers : Nat → List Char → Option (List (String × Js) × List Char)
  | 0, _ => none
  | fuel + 1, input =>
    match input with
    | '"' :: cs =>
      match parseStrBody cs with
      | some (k, rest) =>
        match rest with
        | ':' :: rest2 =>
          match parseV fuel rest2 with
          | some (v, rest3) =>
            match rest3 with
            | ',' :: rest4 =>
              match parseMembers fuel rest4 with
              | some (fs, rest5) => some ((⟨k⟩, v) :: fs, rest5)
              | none => none
            | '}' :: rest4 => some ([(⟨k⟩, v)], rest4)
            | _ => none
          | none => none
        | _ => none
      | none => none
    | _ => none

end

/-- Lean-level model of `JSON.parse`: `none` exactly when `JSON.parse`
throws, requiring the whole input to be consumed. -/
def jsonParse (s : String) : Option Js :=
  match parseV (s.data.length + 1) s.data with
  | some (v, []) => some v
  | _ => none

/-! ## The Theme data model (`src/theme/types.ts`) -/

/-- Mirrors `ThemeColors` from `src/theme/types.ts`. -/
structure ThemeColors where
  primary : String
  secondary : String
  background : String
  surface : String
  text : String
  textSecondary : String
  error : String
  success : String
  warning : String
deriving DecidableEq, Repr

/-- Mirrors the `fontSize` object of `ThemeTypography`. -/
structure ThemeFontSize where
  small : Int
  medium : Int
  large : Int
  xlarge : Int
deriving DecidableEq, Repr

/-- Mirrors the `fontWeight` object of `ThemeTypography`. -/
structure ThemeFontWeight where
  regular : String
  medium : String
  bold : String
deriving DecidableEq, Repr

/-- Mirrors `ThemeTypography` from `src/theme/types.ts`. -/
structure ThemeTypography where
  fontFamily : String
  fontSize : ThemeFontSize
  fontWeight : ThemeFontWeight
deriving DecidableEq, Repr

/-- Mirrors `ThemeSpacing` from `src/theme/types.ts`. -/
structure ThemeSpacing where
  xs : Int
  sm : Int
  md : Int
  lg : Int
  xl : Int
deriving DecidableEq, Repr

/-- Mirrors `Theme` from `src/theme/types.ts`. -/
structure Theme where
  colors : ThemeColors
  typography : ThemeTypography
  spacing : ThemeSpacing
deriving DecidableEq, Repr

/-- The hardcoded fallback theme `DEFAULT_THEME` from `src/theme/types.ts`. -/
def DEFAULT_THEME : Theme :=
  { colors :=
      { primary := "#007AFF"
        secondary := "#5856D6"
        background := "#FFFFFF"
        surface := "#F2F2F7"
        text := "#000000"
        textSecondary := "#8E8E93"
        error := "#FF3B30"
        success := "#34C759"
        warning := "#FF9500" }
    typography :=
      { fontFamily := "System"
        fontSize := { small := 12, medium := 16, large := 20, xlarge := 24 }
        fontWeight := { regular := "400", medium := "500", bold := "700" } }
    spacing := { xs := 4, sm := 8, md := 16, lg := 24, xl := 32 } }

/-- The JSON document representing a `Theme`, fields in the declaration
order of `src/theme/types.ts` (the order `JSON.stringify` emits). -/
def themeToJs (t : Theme) : Js :=
  .obj
    [("colors", .obj
        [("primary", .str t.colors.primary),
         ("secondary", .str t.colors.secondary),
         ("background", .str t.colors.background),
         ("surface", .str t.colors.surface),
         ("text", .str t.colors.text),
         ("textSecondary", .str t.colors.textSecondary),
         ("error", .str t.colors.error),
         ("success", .str t.colors.success),
         ("warning", .str t.colors.warning)]),
     ("typography", .obj
        [("fontFamily", .str t.typography.fontFamily),
         ("fontSize", .obj
            [("small", .num t.typography.fontSize.small),
             ("medium", .num t.typography.fontSize.medium),
             ("large", .num t.typography.fontSize.large),
             ("xlarge", .num t.typography.fontSize.xlarge)]),
         ("fontWeight", .obj
            [("regular", .str t.typography.fontWeight.regular),
             ("medium", .str t.typography.fontWeight.medium),
             ("bold", .str t.typography.fontWeight.bold)])]),
     ("spacing", .obj
        [("xs", .num t.spacing.xs),
         ("sm", .num t.spacing.sm),
         ("md", .num t.spacing.md),
         ("lg", .num t.spacing.lg),
         ("xl", .num t.spacing.xl)])]

/-- Looks a key up in a JSON object's member list (first occurrence). -/
def lookupMember : List (String × Js) → String → Option Js
  | [], _ => none
  | (k, v) :: fs, key => if k = key then some v else lookupMember fs key

/-- A string field of a JSON document. -/
def Js.asStr : Js → Option String
  | .str s => some s
  | _ => none

/-- An integer numeric field of a JSON document. -/
def Js.asNum : Js → Option Int
  | .num n => some n
  | _ => none

/-- An object field of a JSON document. -/
def Js.asObj : Js → Option (List (String × Js))
  | .obj fs => some fs
  | _ => none

/-- Looks up a required string field. -/
def getStrField (fs : List (String × Js)) (key : String) : Option String :=
  (lookupMember fs key).bind Js.asStr

/-- Looks up a required integer numeric field. -/
def getNumField (fs : List (String × Js)) (key : String) : Option Int :=
  (lookupMember fs key).bind Js.asNum

/-- Looks up a required object field. -/
def getObjField (fs : List (String × Js)) (key : String) : Option (List (String × Js)) :=
  (lookupMember fs key).bind Js.asObj

/-- Modelled from the spec: shape check for the `colors` mapping of §3. -/
def decodeColors (v : Js) : Option ThemeColors :=
  match v.asObj with
  | none => none
  | some fs =>
    match getStrField fs "primary", getStrField fs "secondary",
          getStrField fs "background", getStrField fs "surface",
          getStrField fs "text", getStrField fs "textSecondary",
          getStrField fs "error", getStrField fs "success",
          getStrField fs "warning" with
    | some a, some b, some c, some d, some e, some f, some g, some h, some i =>
      some ⟨a, b, c, d, e, f, g, h, i⟩
    | _, _, _, _, _, _, _, _, _ => none

/-- Modelled from the spec: shape check for the `fontSize` mapping of §3
(size tiers mapped to positive numbers). -/
def decodeFontSize (v : Js) : Option ThemeFontSize :=
  match v.asObj with
  | none => none
  | some fs =>
    match getNumField fs "small", getNumField fs "medium",
          getNumField fs "large", getNumField fs "xlarge" with
    | some a, some b, some c, some d =>
      if 0 < a ∧ 0 < b ∧ 0 < c ∧ 0 < d then some ⟨a, b, c, d⟩ else none
    | _, _, _, _ => none

/-- Modelled from the spec: shape check for the `fontWeight` mapping of §3. -/
def decodeFontWeight (v : Js) : Option ThemeFontWeight :=
  match v.asObj with
  | none => none
  | some fs =>
    match getStrField fs "regular", getStrField fs "medium",
          getStrField fs "bold" with
    | some a, some b, some c => some ⟨a, b, c⟩
    | _, _, _ => none

/-- Modelled from the spec: shape check for the `typography` object of §3. -/
def decodeTypography (v : Js) : Option ThemeTypography :=
  match v.asObj with
  | none => none
  | some fs =>
    match getStrField fs "fontFamily",
          (lookupMember fs "fontSize").bind decodeFontSize,
          (lookupMember fs "fontWeight").bind decodeFontWeight with
    | some fam, some size, some weight => some ⟨fam, size, weight⟩
    | _, _, _ => none

/-- Modelled from the spec: shape check for the `spacing` mapping of §3
(size tiers mapped to non-negative numbers). -/
def decodeSpacing (v : Js) : Option ThemeSpacing :=
  match v.asObj with
  | none => none
  | some fs =>
    match getNumField fs "xs", getNumField fs "sm", getNumField fs "md",
          getNumField fs "lg", getNumField fs "xl" with
    | some a, some b, some c, some d, some e =>
      if 0 ≤ a ∧ 0 ≤ b ∧ 0 ≤ c ∧ 0 ≤ d ∧ 0 ≤ e then some ⟨a, b, c, d, e⟩ else none
    | _, _, _, _, _ => none

/-- Modelled from the spec: the §3 Theme schema validity check ("every
field required by the schema above must be present and of the correct
shape"). The source performs no such validation; this definition exists
only to state structural validity of documents in the claims. -/
def jsToTheme? (v : Js) : Option Theme :=
  match v.asObj with
  | none => none
  | some fs =>
    match (lookupMember fs "colors").bind decodeColors,
          (lookupMember fs "typography").bind decodeTypography,
          (lookupMember fs "spacing").bind decodeSpacing with
    | some colors, some typography, some spacing => some ⟨colors, typography, spacing⟩
    | _, _, _ => none

/-! ## RemoteConfigService (`src/services/remoteConfig.ts`)

External collaborators (Firebase Remote Config and AsyncStorage) are
modelled by an explicit environment recording the outcome of each external
call a service invocation makes: whether the call rejects, and what value
the remote fetch activates. Service state carries the `initialized` flag,
the Remote Config default seeded for the `app_theme` key, and the
AsyncStorage slot at the `@theme_cache` key. -/

/-- Outcomes of the external calls made during one service invocation:
`setConfigSettingsOk`, `setDefaultsOk`, `fetchAndActivateOk`, `setItemOk`,
`getItemOk` say whether the corresponding awaited call resolves (or
rejects), and `activatedValue` is the remote value for `app_theme` that a
successful `fetchAndActivate` activates (`none`: no remote value, so
`getValue(..).asString()` falls back to the seeded default). -/
structure Env where
  setConfigSettingsOk : Bool
  setDefaultsOk : Bool
  fetchAndActivateOk : Bool
  activatedValue : Option String
  setItemOk : Bool
  getItemOk : Bool
deriving DecidableEq, Repr

/-- Mutable state of the running system: the service's `initialized` flag,
the Remote Config default string seeded for `app_theme` (`setDefaults`),
and the AsyncStorage slot at `@theme_cache`. -/
structure SysState where
  initialized : Bool
  remoteDefaults : Option String
  themeCache : Option String
deriving DecidableEq, Repr

namespace RemoteConfigService

/-- Translation of `getCachedTheme`: reads `@theme_cache` from
AsyncStorage; a missing value, a falsy (empty) string, a `JSON.parse`
failure, or a storage error all yield `null`; otherwise the parsed
document. Never throws. -/
def getCachedTheme (env : Env) (s : SysState) : Js :=
  if env.getItemOk then
    match s.themeCache with
    | none => Js.null
    | some str =>
      if str = "" then Js.null
      else
        match jsonParse str with
        | some v => v
        | none => Js.null
  else Js.null

/-- Translation of `cacheTheme`: writes `JSON.stringify` of the document
to `@theme_cache`; a storage error is swallowed (best-effort write). -/
def cacheTheme (env : Env) (s : SysState) (v : Js) : SysState :=
  if env.setItemOk then { s with themeCache := some (jsonStringify v) } else s

/-- Translation of `initialize` (named `initializeService` because
`initialize` is a Lean keyword): no-op once `initialized` is set;
otherwise configures the remote source, reads the cached theme, seeds the
`app_theme` default with `JSON.stringify` of it, and sets `initialized`.
Any rejection of `setConfigSettings` or `setDefaults` is rethrown
(`Except.error`) with the flag left unset. -/
def initializeService (env : Env) (s : SysState) : Except Unit Unit × SysState :=
  if s.initialized then (.ok (), s)
  else if env.setConfigSettingsOk = false then (.error (), s)
  else
    let cached := getCachedTheme env s
    if env.setDefaultsOk = false then (.error (), s)
    else (.ok (), { s with remoteDefaults := some (jsonStringify cached), initialized := true })

/-- Translation of `remoteConfig().getValue(THEME_CONFIG_KEY).asString()`:
the activated remote value if one exists, else the seeded default, else
the empty string. Never throws. -/
def remoteGetString (env : Env) (s : SysState) : String :=
  match env.activatedValue with
  | some v => v
  | none => s.remoteDefaults.getD ""

/-- Translation of `fetchTheme`: initialize, fetch-and-activate, read and
`JSON.parse` the remote string, write-through to the cache and return the
parsed document; any rejection or parse failure lands in the catch block,
which resolves to `getCachedTheme`. Returns the resolved document and the
final state; never rejects. -/
def fetchTheme (env : Env) (s : SysState) : Js × SysState :=
  match initializeService env s with
  | (.error _, s1) => (getCachedTheme env s1, s1)
  | (.ok _, s1) =>
    if env.fetchAndActivateOk = false then (getCachedTheme env s1, s1)
    else
      let themeString := remoteGetString env s1
      match jsonParse themeString with
      | none => (getCachedTheme env s1, s1)
      | some v => (v, cacheTheme env s1 v)

end RemoteConfigService

/-! ## ThemeProvider (`src/theme/ThemeContext.tsx`) -/

/-- JavaScript truthiness of a JSON document (`if (newTheme)` in
`refreshTheme`): `null`, `false`, `0` and `""` are falsy; every array and
object (even empty) is truthy. -/
def jsTruthy : Js → Bool
  | .null => false
  | .bool b => b
  | .num n => n ≠ 0
  | .str s => s ≠ ""
  | .arr _ => true
  | .obj _ => true

/-- Observable state held by `ThemeProvider`: the current theme document,
the loading flag, and the error message. -/
structure ProviderState where
  theme : Js
  isLoading : Bool
  error : Option String
deriving Repr

/-- The provider state at mount: `DEFAULT_THEME`, loading, no error. -/
def initialProviderState : ProviderState :=
  { theme := themeToJs DEFAULT_THEME, isLoading := true, error := none }

/-- Translation of `ThemeProvider.refreshTheme`: sets loading and clears
the error, awaits `fetchTheme`, installs the fetched document if truthy
and `DEFAULT_THEME` otherwise, and finally clears the loading flag. The
catch branch is unreachable because `fetchTheme` never rejects, so the
resulting error is always `null`. -/
def refreshTheme (env : Env) (p : ProviderState) (s : SysState) :
    ProviderState × SysState :=
  let loading := { p with isLoading := true, error := none }
  let (v, s1) := RemoteConfigService.fetchTheme env s
  let after :=
    { loading with theme := if jsTruthy v then v else themeToJs DEFAULT_THEME }
  ({ after with isLoading := false }, s1)

/-! ## Round-trip correctness of the JSON model -/

/-- Whether a list does not begin with a digit (what follows a serialized
number in any serializer output). -/
def noDigitHead : List Char → Prop
  | [] => True
  | c :: _ => isDigitChar c = false

theorem digitChar_toNat (d : Nat) (h : d < 10) : (digitChar d).toNat = 48 + d := by
  interval_cases d <;> rfl

theorem digitChar_isDigit (d : Nat) (h : d < 10) : isDigitChar (digitChar d) = true := by
  interval_cases d <;> decide

theorem digitsToNat_append (l : List Char) (c : Char) :
    digitsToNat (l ++ [c]) = digitsToNat l * 10 + (c.toNat - 48) := by
  simp [digitsToNat, List.foldl_append]

theorem natToCharsAux_spec (fuel : Nat) :
    ∀ n, n < fuel →
      digitsToNat (natToCharsAux fuel n) = n ∧
      (∀ c ∈ natToCharsAux fuel n, isDigitChar c = true) ∧
      natToCharsAux fuel n ≠ [] := by
  induction fuel with
  | zero => intro n h; omega
  | succ fuel ih =>
    intro n h
    by_cases h10 : n < 10
    · refine ⟨?_, ?_, ?_⟩ <;> simp [natToCharsAux, h10, digitsToNat]
      · have := digitChar_toNat n h10
        omega
      · exact digitChar_isDigit n h10
    · have hdiv : n / 10 < fuel := by omega
      obtain ⟨ihv, ihd, ihne⟩ := ih (n / 10) hdiv
      refine ⟨?_, ?_, ?_⟩
      · simp only [natToCharsAux, if_neg h10, digitsToNat_append, ihv,
          digitChar_toNat (n % 10) (by omega)]
        omega
      · simp only [natToCharsAux, if_neg h10]
        intro c hc
        rcases List.mem_append.mp hc with hc | hc
        · exact ihd c hc
        · simp at hc
          subst hc
          exact digitChar_isDigit _ (by omega)
      · simp [natToCharsAux, if_neg h10]

theorem natToChars_val (n : Nat) : digitsToNat (natToChars n) = n :=
  (natToCharsAux_spec (n + 1) n (by omega)).1

theorem natToChars_digits (n : Nat) : ∀ c ∈ natToChars n, isDigitChar c = true :=
  (natToCharsAux_spec (n + 1) n (by omega)).2.1

theorem natToChars_ne_nil (n : Nat) : natToChars n ≠ [] :=
  (natToCharsAux_spec (n + 1) n (by omega)).2.2

theorem digitSpan_append (ds rest : List Char)
    (hds : ∀ c ∈ ds, isDigitChar c = true) (hrest : noDigitHead rest) :
    digitSpan (ds ++ rest) = (ds, rest) := by
  induction ds with
  | nil =>
    cases rest with
    | nil => rfl
    | cons c cs => simp_all [digitSpan, noDigitHead]
  | cons d ds ih =>
    have hd : isDigitChar d = true := hds d (by simp)
    simp_all [digitSpan]

theorem isDigit_toNat {c : Char} (h : isDigitChar c = true) :
    48 ≤ c.toNat ∧ c.toNat ≤ 57 := by
  simp [isDigitChar] at h
  exact h

theorem isDigit_ne_minus {c : Char} (h : isDigitChar c = true) : c ≠ '-' := by
  rintro rfl; revert h; decide

theorem parseNum_print (n : Int) (rest : List Char) (h : noDigitHead rest) :
    parseNum (intToChars n ++ rest) = some (n, rest) := by
  obtain ⟨d, ds, hds⟩ := List.exists_cons_of_ne_nil (natToChars_ne_nil n.natAbs)
  have hd : isDigitChar d = true := by
    apply natToChars_digits n.natAbs
    rw [hds]; simp
  have hspan : digitSpan (d :: (ds ++ rest)) = (d :: ds, rest) := by
    have hsp := digitSpan_append (natToChars n.natAbs) rest (natToChars_digits _) h
    rw [hds] at hsp
    simpa using hsp
  have hval : digitsToNat (d :: ds) = n.natAbs := by rw [← hds, natToChars_val]
  by_cases hn : n < 0
  · simp only [intToChars, if_pos hn, hds, List.cons_append, parseNum, if_pos rfl, hspan]
    simp only [hval, if_true, Option.some.injEq, Prod.mk.injEq, and_true]
    omega
  · simp only [intToChars, if_neg hn, hds, List.cons_append, parseNum,
      if_neg (isDigit_ne_minus hd), hspan]
    simp only [hval, Option.some.injEq, Prod.mk.injEq, and_true]
    omega

theorem parseStrBody_print (s rest : List Char) :
    parseStrBody (escapeChars s ++ '"' :: rest) = some (s, rest) := by
  induction s with
  | nil =>
    rw [escapeChars, List.nil_append, parseStrBody.eq_def]
    simp
  | cons c cs ih =>
    by_cases hc : c = '"' ∨ c = '\\'
    · rw [escapeChars, if_pos hc, List.cons_append, List.cons_append, parseStrBody.eq_def]
      simp [hc, ih]
    · rw [escapeChars, if_neg hc, List.cons_append, parseStrBody.eq_def]
      push_neg at hc
      simp [hc.1, hc.2, ih]

mutual

/-- Fuel sufficient for `parseV` to parse a serialized value. -/
def jsNeed : Js → Nat
  | .arr xs => 1 + elemsNeed xs
  | .obj fs => 1 + membersNeed fs
  | _ => 1

/-- Fuel sufficient for `parseElems` on serialized elements. -/
def elemsNeed : List Js → Nat
  | [] => 0
  | x :: xs => 1 + max (jsNeed x) (elemsNeed xs)

/-- Fuel sufficient for `parseMembers` on serialized members. -/
def membersNeed : List (String × Js) → Nat
  | [] => 0
  | (_, v) :: fs => 1 + max (jsNeed v) (membersNeed fs)

end

theorem jsNeed_pos (v : Js) : 1 ≤ jsNeed v := by
  cases v <;> simp [jsNeed]

theorem isDigit_ne_char {c : Char} (h : isDigitChar c = true) (d : Char)
    (hd : d.toNat < 48 ∨ 57 < d.toNat) : c ≠ d := by
  have hc := isDigit_toNat h
  rintro rfl
  omega

theorem intToChars_head (n : Int) :
    ∃ c cs, intToChars n = c :: cs ∧ (c = '-' ∨ isDigitChar c = true) := by
  have hne := natToChars_ne_nil n.natAbs
  obtain ⟨d, ds, hds⟩ := List.exists_cons_of_ne_nil hne
  have hd : isDigitChar d = true := by
    apply natToChars_digits n.natAbs
    rw [hds]; simp
  by_cases hn : n < 0
  · exact ⟨'-', natToChars n.natAbs, by simp [intToChars, hn], Or.inl rfl⟩
  · exact ⟨d, ds, by simp [intToChars, hn, hds], Or.inr hd⟩

/-- Serializer output is nonempty and never starts with a close bracket,
close brace, comma, or colon. -/
theorem stringifyV_head (v : Js) :
    ∃ c cs, stringifyV v = c :: cs ∧ c ≠ ']' ∧ c ≠ '}' := by
  cases v with
  | null => exact ⟨'n', _, rfl, by decide, by decide⟩
  | bool b =>
    cases b
    · exact ⟨'f', _, rfl, by decide, by decide⟩
    · exact ⟨'t', _, rfl, by decide, by decide⟩
  | num n =>
    obtain ⟨c, cs, heq, hc⟩ := intToChars_head n
    refine ⟨c, cs, by simp [stringifyV, heq], ?_, ?_⟩
    · rcases hc with rfl | hc
      · decide
      · exact isDigit_ne_char hc _ (by decide)
    · rcases hc with rfl | hc
      · decide
      · exact isDigit_ne_char hc _ (by decide)
  | str s => exact ⟨'"', _, rfl, by decide, by decide⟩
  | arr xs => exact ⟨'[', _, rfl, by decide, by decide⟩
  | obj fs => exact ⟨'{', _, rfl, by decide, by decide⟩

theorem noDigitHead_cons (c : Char) (rest : List Char) (h : isDigitChar c = false) :
    noDigitHead (c :: rest) := h

theorem noDigitHead_nil : noDigitHead ([] : List Char) := trivial

theorem mk_data_eq (s : String) : String.mk s.data = s := rfl

theorem elemsNeed_lt_arr (xs : List Js) : elemsNeed xs < jsNeed (.arr xs) := by
  have h : jsNeed (.arr xs) = 1 + elemsNeed xs := rfl
  omega

theorem membersNeed_lt_obj (fs : List (String × Js)) :
    membersNeed fs < jsNeed (.obj fs) := by
  have h : jsNeed (.obj fs) = 1 + membersNeed fs := rfl
  omega

theorem jsNeed_lt_elems (x : Js) (xs : List Js) : jsNeed x < elemsNeed (x :: xs) := by
  have h : elemsNeed (x :: xs) = 1 + max (jsNeed x) (elemsNeed xs) := rfl
  have h2 := Nat.le_max_left (jsNeed x) (elemsNeed xs)
  omega

theorem elemsNeed_lt_elems (x : Js) (xs : List Js) :
    elemsNeed xs < elemsNeed (x :: xs) := by
  have h : elemsNeed (x :: xs) = 1 + max (jsNeed x) (elemsNeed xs) := rfl
  have h2 := Nat.le_max_right (jsNeed x) (elemsNeed xs)
  omega

theorem jsNeed_lt_members (k0 : String) (v0 : Js) (fs : List (String × Js)) :
    jsNeed v0 < membersNeed ((k0, v0) :: fs) := by
  have h : membersNeed ((k0, v0) :: fs) = 1 + max (jsNeed v0) (membersNeed fs) := rfl
  have h2 := Nat.le_max_left (jsNeed v0) (membersNeed fs)
  omega

theorem membersNeed_lt_members (k0 : String) (v0 : Js) (fs : List (String × Js)) :
    membersNeed fs < membersNeed ((k0, v0) :: fs) := by
  have h : membersNeed ((k0, v0) :: fs) = 1 + max (jsNeed v0) (membersNeed fs) := rfl
  have h2 := Nat.le_max_right (jsNeed v0) (membersNeed fs)
  omega

theorem elemsNeed_pos (xs : List Js) (h : xs ≠ []) : 1 ≤ elemsNeed xs := by
  cases xs with
  | nil => exact absurd rfl h
  | cons x xs =>
    have h1 : elemsNeed (x :: xs) = 1 + max (jsNeed x) (elemsNeed xs) := rfl
    omega

theorem membersNeed_pos (fs : List (String × Js)) (h : fs ≠ []) : 1 ≤ membersNeed fs := by
  cases fs with
  | nil => exact absurd rfl h
  | cons f fs =>
    obtain ⟨k0, v0⟩ := f
    have h1 : membersNeed ((k0, v0) :: fs) = 1 + max (jsNeed v0) (membersNeed fs) := rfl
    omega

/-- Parsing inverts serialization: values, element lists, and member lists
simultaneously, by induction on a bound for the needed fuel. -/
theorem parsePrintRec (N : Nat) :
    (∀ v : Js, jsNeed v ≤ N → ∀ fuel : Nat, jsNeed v ≤ fuel →
      ∀ rest : List Char, noDigitHead rest →
      parseV fuel (stringifyV v ++ rest) = some (v, rest)) ∧
    (∀ xs : List Js, xs ≠ [] → elemsNeed xs ≤ N → ∀ fuel : Nat, elemsNeed xs ≤ fuel →
      ∀ rest : List Char,
      parseElems fuel (stringifyElems xs ++ ']' :: rest) = some (xs, rest)) ∧
    (∀ fs : List (String × Js), fs ≠ [] → membersNeed fs ≤ N → ∀ fuel : Nat,
      membersNeed fs ≤ fuel → ∀ rest : List Char,
      parseMembers fuel (stringifyMembers fs ++ '}' :: rest) = some (fs, rest)) := by
  induction N with
  | zero =>
    refine ⟨fun v hv => ?_, fun xs hne hb => ?_, fun fs hne hb => ?_⟩
    · have := jsNeed_pos v
      omega
    · have := elemsNeed_pos xs hne
      omega
    · have := membersNeed_pos fs hne
      omega
  | succ N ih =>
    obtain ⟨ihV, ihE, ihM⟩ := ih
    refine ⟨fun v hN fuel hfuel rest hrest => ?_,
      fun xs hne hN fuel hfuel rest => ?_,
      fun fs hne hN fuel hfuel rest => ?_⟩
    · -- values
      obtain ⟨k, rfl⟩ : ∃ k, fuel = k + 1 := ⟨fuel - 1, by have := jsNeed_pos v; omega⟩
      cases v with
      | null =>
        rw [show stringifyV .null = ['n', 'u', 'l', 'l'] from rfl]
        simp only [List.cons_append, List.nil_append]
        rw [parseV]
        simp [parseNullTail]
      | bool b =>
        cases b
        · rw [show stringifyV (.bool false) = ['f', 'a', 'l', 's', 'e'] from rfl]
          simp only [List.cons_append, List.nil_append]
          rw [parseV]
          simp [parseFalseTail]
        · rw [show stringifyV (.bool true) = ['t', 'r', 'u', 'e'] from rfl]
          simp only [List.cons_append, List.nil_append]
          rw [parseV]
          simp [parseTrueTail]
      | num n =>
        obtain ⟨c, cs, heq, hc⟩ := intToChars_head n
        have hne : c ≠ '{' ∧ c ≠ '[' ∧ c ≠ '"' ∧ c ≠ 'f' ∧ c ≠ 't' ∧ c ≠ 'n' := by
          rcases hc with rfl | hc
          · exact ⟨by decide, by decide, by decide, by decide, by decide, by decide⟩
          · exact ⟨isDigit_ne_char hc _ (by decide), isDigit_ne_char hc _ (by decide),
              isDigit_ne_char hc _ (by decide), isDigit_ne_char hc _ (by decide),
              isDigit_ne_char hc _ (by decide), isDigit_ne_char hc _ (by decide)⟩
        have hpn := parseNum_print n rest hrest
        rw [heq, List.cons_append] at hpn
        rw [show stringifyV (.num n) = intToChars n from rfl, heq, List.cons_append, parseV]
        simp only [if_neg hne.2.2.2.2.2, if_neg hne.2.2.2.2.1, if_neg hne.2.2.2.1,
          if_neg hne.2.2.1, if_neg hne.2.1, if_neg hne.1]
        simp [parseNumV, hpn]
      | str s =>
        have hps := parseStrBody_print s.data rest
        rw [show stringifyV (.str s) = strLitChars s from rfl, strLitChars]
        simp only [List.cons_append, List.append_assoc, List.singleton_append]
        rw [parseV]
        have h1 : ('"' : Char) ≠ 'n' := by decide
        have h2 : ('"' : Char) ≠ 't' := by decide
        have h3 : ('"' : Char) ≠ 'f' := by decide
        rw [if_neg h1, if_neg h2, if_neg h3, if_pos rfl]
        simp [parseStrLit, hps]
      | arr xs =>
        cases xs with
        | nil =>
          rw [show stringifyV (.arr []) = ['[', ']'] from rfl]
          simp only [List.cons_append, List.nil_append]
          rw [parseV]
          simp
        | cons x xs =>
          have hbk : elemsNeed (x :: xs) ≤ N := by
            have h1 : 1 + elemsNeed (x :: xs) ≤ N + 1 := hN
            omega
          have hfk : elemsNeed (x :: xs) ≤ k := by
            have h1 : 1 + elemsNeed (x :: xs) ≤ k + 1 := hfuel
            omega
          have hpe := ihE (x :: xs) (by simp) hbk k hfk rest
          obtain ⟨c0, cs0, hc0, hc0r, hc0b⟩ := stringifyV_head x
          obtain ⟨t, hE⟩ : ∃ t, stringifyElems (x :: xs) = stringifyV x ++ t := by
            cases xs with
            | nil => exact ⟨_, rfl⟩
            | cons y ys => exact ⟨_, rfl⟩
          rw [show stringifyV (.arr (x :: xs)) = '[' :: (stringifyElems (x :: xs) ++ [']'])
              from rfl]
          simp only [List.cons_append, List.append_assoc, List.singleton_append,
            List.nil_append]
          rw [parseV]
          rw [if_neg (by decide : ¬('[' : Char) = 'n'),
            if_neg (by decide : ¬('[' : Char) = 't'),
            if_neg (by decide : ¬('[' : Char) = 'f'),
            if_neg (by decide : ¬('[' : Char) = '"'), if_pos rfl]
          rw [if_neg (by rw [hE, hc0]; simp [hc0r])]
          rw [hpe]
      | obj fs =>
        cases fs with
        | nil =>
          rw [show stringifyV (.obj []) = ['{', '}'] from rfl]
          simp only [List.cons_append, List.nil_append]
          rw [parseV]
          simp
        | cons f fs =>
          obtain ⟨k0, v0⟩ := f
          have hbk : membersNeed ((k0, v0) :: fs) ≤ N := by
            have h1 : 1 + membersNeed ((k0, v0) :: fs) ≤ N + 1 := hN
            omega
          have hfk : membersNeed ((k0, v0) :: fs) ≤ k := by
            have h1 : 1 + membersNeed ((k0, v0) :: fs) ≤ k + 1 := hfuel
            omega
          have hpm := ihM ((k0, v0) :: fs) (by simp) hbk k hfk rest
          obtain ⟨t, hM⟩ : ∃ t, stringifyMembers ((k0, v0) :: fs) = '"' :: t := by
            cases fs with
            | nil => exact ⟨_, rfl⟩
            | cons g gs => exact ⟨_, rfl⟩
          rw [show stringifyV (.obj ((k0, v0) :: fs)) =
              '{' :: (stringifyMembers ((k0, v0) :: fs) ++ ['}']) from rfl]
          simp only [List.cons_append, List.append_assoc, List.singleton_append,
            List.nil_append]
          rw [parseV]
          rw [if_neg (by decide : ¬('{' : Char) = 'n'),
            if_neg (by decide : ¬('{' : Char) = 't'),
            if_neg (by decide : ¬('{' : Char) = 'f'),
            if_neg (by decide : ¬('{' : Char) = '"'),
            if_neg (by decide : ¬('{' : Char) = '['), if_pos rfl]
          rw [if_neg (by rw [hM]; simp)]
          rw [hpm]
    · -- element lists
      obtain ⟨x, xs, rfl⟩ : ∃ y ys, xs = y :: ys := by
        cases xs with
        | nil => exact absurd rfl hne
        | cons a as => exact ⟨a, as, rfl⟩
      obtain ⟨k, rfl⟩ : ∃ k, fuel = k + 1 := by
        refine ⟨fuel - 1, ?_⟩
        have h1 : 1 + max (jsNeed x) (elemsNeed xs) ≤ fuel := hfuel
        omega
      have hbx : jsNeed x ≤ N := by
        have h1 : 1 + max (jsNeed x) (elemsNeed xs) ≤ N + 1 := hN
        have h2 := Nat.le_max_left (jsNeed x) (elemsNeed xs)
        omega
      have hkx : jsNeed x ≤ k := by
        have h1 : 1 + max (jsNeed x) (elemsNeed xs) ≤ k + 1 := hfuel
        have h2 := Nat.le_max_left (jsNeed x) (elemsNeed xs)
        omega
      cases xs with
      | nil =>
        have hpv := ihV x hbx k hkx (']' :: rest) (noDigitHead_cons _ _ (by decide))
        rw [show stringifyElems [x] = stringifyV x ++ [] from rfl, List.append_nil,
          parseElems]
        simp [hpv]
      | cons y ys =>
        have hbxs : elemsNeed (y :: ys) ≤ N := by
          have h1 : 1 + max (jsNeed x) (elemsNeed (y :: ys)) ≤ N + 1 := hN
          have h2 := Nat.le_max_right (jsNeed x) (elemsNeed (y :: ys))
          omega
        have hkxs : elemsNeed (y :: ys) ≤ k := by
          have h1 : 1 + max (jsNeed x) (elemsNeed (y :: ys)) ≤ k + 1 := hfuel
          have h2 := Nat.le_max_right (jsNeed x) (elemsNeed (y :: ys))
          omega
        have hpe := ihE (y :: ys) (by simp) hbxs k hkxs rest
        have hpv := ihV x hbx k hkx
          (',' :: (stringifyElems (y :: ys) ++ ']' :: rest))
          (noDigitHead_cons _ _ (by decide))
        rw [show stringifyElems (x :: y :: ys)
            = stringifyV x ++ ',' :: stringifyElems (y :: ys) from rfl]
        simp only [List.cons_append, List.append_assoc, List.nil_append]
        rw [parseElems]
        simp only [List.cons_append] at hpv
        simp [hpv, hpe]
    · -- member lists
      obtain ⟨⟨k0, v0⟩, fs, rfl⟩ : ∃ y ys, fs = y :: ys := by
        cases fs with
        | nil => exact absurd rfl hne
        | cons a as => exact ⟨a, as, rfl⟩
      obtain ⟨k, rfl⟩ : ∃ k, fuel = k + 1 := by
        refine ⟨fuel - 1, ?_⟩
        have h1 : 1 + max (jsNeed v0) (membersNeed fs) ≤ fuel := hfuel
        omega
      have hbv : jsNeed v0 ≤ N := by
        have h1 : 1 + max (jsNeed v0) (membersNeed fs) ≤ N + 1 := hN
        have h2 := Nat.le_max_left (jsNeed v0) (membersNeed fs)
        omega
      have hkv : jsNeed v0 ≤ k := by
        have h1 : 1 + max (jsNeed v0) (membersNeed fs) ≤ k + 1 := hfuel
        have h2 := Nat.le_max_left (jsNeed v0) (membersNeed fs)
        omega
      cases fs with
      | nil =>
        have hpv := ihV v0 hbv k hkv ('}' :: rest) (noDigitHead_cons _ _ (by decide))
        have hps := parseStrBody_print k0.data (':' :: (stringifyV v0 ++ '}' :: rest))
        rw [show stringifyMembers [(k0, v0)] = strLitChars k0 ++ ':' :: stringifyV v0 ++ []
            from rfl, List.append_nil, strLitChars]
        simp only [List.cons_append, List.append_assoc, List.singleton_append]
        rw [parseMembers]
        simp [hps, hpv, mk_data_eq]
      | cons g gs =>
        have hbfs : membersNeed (g :: gs) ≤ N := by
          have h1 : 1 + max (jsNeed v0) (membersNeed (g :: gs)) ≤ N + 1 := hN
          have h2 := Nat.le_max_right (jsNeed v0) (membersNeed (g :: gs))
          omega
        have hkfs : membersNeed (g :: gs) ≤ k := by
          have h1 : 1 + max (jsNeed v0) (membersNeed (g :: gs)) ≤ k + 1 := hfuel
          have h2 := Nat.le_max_right (jsNeed v0) (membersNeed (g :: gs))
          omega
        have hpm := ihM (g :: gs) (by simp) hbfs k hkfs rest
        have hpv := ihV v0 hbv k hkv
          (',' :: (stringifyMembers (g :: gs) ++ '}' :: rest))
          (noDigitHead_cons _ _ (by decide))
        have hps := parseStrBody_print k0.data
          (':' :: (stringifyV v0 ++ ',' :: (stringifyMembers (g :: gs) ++ '}' :: rest)))
        rw [show stringifyMembers ((k0, v0) :: g :: gs)
            = strLitChars k0 ++ ':' :: stringifyV v0 ++ ',' :: stringifyMembers (g :: gs)
            from rfl, strLitChars]
        simp only [List.cons_append, List.append_assoc, List.singleton_append]
        rw [parseMembers]
        simp only [List.cons_append, List.append_assoc] at hpv
        simp [hps, hpv, hpm, mk_data_eq]

/-- Parsing inverts serialization for any value given sufficient fuel. -/
theorem parseV_print (v : Js) (fuel : Nat) (hfuel : jsNeed v ≤ fuel)
    (rest : List Char) (hrest : noDigitHead rest) :
    parseV fuel (stringifyV v ++ rest) = some (v, rest) :=
  (parsePrintRec (jsNeed v)).1 v le_rfl fuel hfuel rest hrest

/-- The needed fuel is bounded by the serialized length (values), or that
length plus one (element and member lists). -/
theorem needLeLenRec (N : Nat) :
    (∀ v : Js, jsNeed v ≤ N → jsNeed v ≤ (stringifyV v).length) ∧
    (∀ xs : List Js, elemsNeed xs ≤ N → elemsNeed xs ≤ (stringifyElems xs).length + 1) ∧
    (∀ fs : List (String × Js), membersNeed fs ≤ N →
      membersNeed fs ≤ (stringifyMembers fs).length + 1) := by
  induction N with
  | zero =>
    refine ⟨fun v hv => ?_, fun xs hb => ?_, fun fs hb => ?_⟩
    · have := jsNeed_pos v
      omega
    · omega
    · omega
  | succ N ih =>
    obtain ⟨ihV, ihE, ihM⟩ := ih
    refine ⟨fun v hN => ?_, fun xs hN => ?_, fun fs hN => ?_⟩
    · cases v with
      | null =>
        have h : (stringifyV .null).length = 4 := rfl
        have h2 : jsNeed .null = 1 := rfl
        omega
      | bool b =>
        cases b
        · have h : (stringifyV (.bool false)).length = 5 := rfl
          have h2 : jsNeed (.bool false) = 1 := rfl
          omega
        · have h : (stringifyV (.bool true)).length = 4 := rfl
          have h2 : jsNeed (.bool true) = 1 := rfl
          omega
      | num n =>
        obtain ⟨c, cs, heq, -⟩ := intToChars_head n
        have h : (stringifyV (.num n)).length = (intToChars n).length := rfl
        have h2 : jsNeed (.num n) = 1 := rfl
        rw [heq] at h
        simp only [List.length_cons] at h
        omega
      | str s =>
        have h : stringifyV (.str s) = '"' :: (escapeChars s.data ++ ['"']) := rfl
        have h2 : jsNeed (.str s) = 1 := rfl
        rw [h]
        simp only [List.length_cons]
        omega
      | arr xs =>
        cases xs with
        | nil =>
          have h : (stringifyV (.arr [])).length = 2 := rfl
          have h2 : jsNeed (.arr []) = 1 + elemsNeed [] := rfl
          have h3 : elemsNeed ([] : List Js) = 0 := rfl
          omega
        | cons x xs =>
          have h2 : jsNeed (.arr (x :: xs)) = 1 + elemsNeed (x :: xs) := rfl
          have hb : elemsNeed (x :: xs) ≤ N := by
            have h1 : 1 + elemsNeed (x :: xs) ≤ N + 1 := hN
            omega
          have hi := ihE (x :: xs) hb
          have h : stringifyV (.arr (x :: xs)) = '[' :: (stringifyElems (x :: xs) ++ [']'])
            := rfl
          rw [h, h2]
          simp only [List.length_cons, List.length_append, List.length_singleton]
          omega
      | obj fs =>
        cases fs with
        | nil =>
          have h : (stringifyV (.obj [])).length = 2 := rfl
          have h2 : jsNeed (.obj []) = 1 + membersNeed [] := rfl
          have h3 : membersNeed ([] : List (String × Js)) = 0 := rfl
          omega
        | cons f fs =>
          obtain ⟨k0, v0⟩ := f
          have h2 : jsNeed (.obj ((k0, v0) :: fs)) = 1 + membersNeed ((k0, v0) :: fs) := rfl
          have hb : membersNeed ((k0, v0) :: fs) ≤ N := by
            have h1 : 1 + membersNeed ((k0, v0) :: fs) ≤ N + 1 := hN
            omega
          have hi := ihM ((k0, v0) :: fs) hb
          have h : stringifyV (.obj ((k0, v0) :: fs))
              = '{' :: (stringifyMembers ((k0, v0) :: fs) ++ ['}']) := rfl
          rw [h, h2]
          simp only [List.length_cons, List.length_append, List.length_singleton]
          omega
    · cases xs with
      | nil =>
        have h3 : elemsNeed ([] : List Js) = 0 := rfl
        omega
      | cons x xs =>
        have h2 : elemsNeed (x :: xs) = 1 + max (jsNeed x) (elemsNeed xs) := rfl
        have hbx : jsNeed x ≤ N := by
          have h1 : 1 + max (jsNeed x) (elemsNeed xs) ≤ N + 1 := hN
          have h4 := Nat.le_max_left (jsNeed x) (elemsNeed xs)
          omega
        have hbxs : elemsNeed xs ≤ N := by
          have h1 : 1 + max (jsNeed x) (elemsNeed xs) ≤ N + 1 := hN
          have h4 := Nat.le_max_right (jsNeed x) (elemsNeed xs)
          omega
        have hix := ihV x hbx
        have hixs := ihE xs hbxs
        cases xs with
        | nil =>
          have h : stringifyElems [x] = stringifyV x ++ [] := rfl
          rw [h, h2]
          have h3 : elemsNeed ([] : List Js) = 0 := rfl
          simp only [List.append_nil]
          have h5 := Nat.max_le.mpr (⟨Nat.le_add_right _ _, Nat.le_add_left _ _⟩ :
            jsNeed x ≤ jsNeed x + elemsNeed ([] : List Js) ∧
            elemsNeed ([] : List Js) ≤ jsNeed x + elemsNeed ([] : List Js))
          omega
        | cons y ys =>
          have h : stringifyElems (x :: y :: ys)
              = stringifyV x ++ ',' :: stringifyElems (y :: ys) := rfl
          rw [h, h2]
          simp only [List.length_append, List.length_cons]
          have h5 := Nat.max_le.mpr (⟨Nat.le_add_right _ _, Nat.le_add_left _ _⟩ :
            jsNeed x ≤ jsNeed x + elemsNeed (y :: ys) ∧
            elemsNeed (y :: ys) ≤ jsNeed x + elemsNeed (y :: ys))
          omega
    · cases fs with
      | nil =>
        have h3 : membersNeed ([] : List (String × Js)) = 0 := rfl
        omega
      | cons f fs =>
        obtain ⟨k0, v0⟩ := f
        have h2 : membersNeed ((k0, v0) :: fs) = 1 + max (jsNeed v0) (membersNeed fs) := rfl
        have hbv : jsNeed v0 ≤ N := by
          have h1 : 1 + max (jsNeed v0) (membersNeed fs) ≤ N + 1 := hN
          have h4 := Nat.le_max_left (jsNeed v0) (membersNeed fs)
          omega
        have hbfs : membersNeed fs ≤ N := by
          have h1 : 1 + max (jsNeed v0) (membersNeed fs) ≤ N + 1 := hN
          have h4 := Nat.le_max_right (jsNeed v0) (membersNeed fs)
          omega
        have hiv := ihV v0 hbv
        have hifs := ihM fs hbfs
        have h5 := Nat.max_le.mpr (⟨Nat.le_add_right _ _, Nat.le_add_left _ _⟩ :
          jsNeed v0 ≤ jsNeed v0 + membersNeed fs ∧
          membersNeed fs ≤ jsNeed v0 + membersNeed fs)
        cases fs with
        | nil =>
          have h : stringifyMembers [(k0, v0)]
              = strLitChars k0 ++ ':' :: stringifyV v0 ++ [] := rfl
          have h6 : membersNeed ([] : List (String × Js)) = 0 := rfl
          rw [h, h2]
          simp only [List.append_nil, List.length_append, List.length_cons,
            List.length_nil, strLitChars]
          omega
        | cons g gs =>
          have h : stringifyMembers ((k0, v0) :: g :: gs)
              = strLitChars k0 ++ ':' :: stringifyV v0 ++ ',' :: stringifyMembers (g :: gs)
            := rfl
          rw [h, h2]
          simp only [List.length_append, List.length_cons, strLitChars]
          omega

/-- The fuel `jsonParse` supplies is always sufficient for serializer
output. -/
theorem jsNeed_le_len (v : Js) : jsNeed v ≤ (stringifyV v).length :=
  (needLeLenRec (jsNeed v)).1 v le_rfl

/-- The central round trip: `JSON.parse` of `JSON.stringify` of any
document yields the document back. -/
theorem jsonParse_stringify (v : Js) : jsonParse (jsonStringify v) = some v := by
  have h := parseV_print v ((stringifyV v).length + 1)
    (le_trans (jsNeed_le_len v) (by omega)) [] trivial
  rw [List.append_nil] at h
  have hdata : (jsonStringify v).data = stringifyV v := rfl
  unfold jsonParse
  rw [hdata, h]

/-- Serializer output is never the empty string. -/
theorem jsonStringify_ne_empty (v : Js) : jsonStringify v ≠ "" := by
  obtain ⟨c, cs, h, -, -⟩ := stringifyV_head v
  intro hcontra
  have h2 : (jsonStringify v).data = ("" : String).data := by rw [hcontra]
  rw [show (jsonStringify v).data = stringifyV v from rfl, h] at h2
  simp at h2

/-! ## Behavior of the service operations -/

namespace RemoteConfigService

/-- The cached-theme read depends only on the cache slot. -/
theorem getCachedTheme_congr (env : Env) (s1 s2 : SysState)
    (h : s1.themeCache = s2.themeCache) :
    getCachedTheme env s1 = getCachedTheme env s2 := by
  unfold getCachedTheme
  rw [h]

/-- Initialization never writes the AsyncStorage cache slot. -/
theorem initializeService_themeCache (env : Env) (s : SysState) :
    ((initializeService env s).2).themeCache = s.themeCache := by
  unfold initializeService
  split
  · rfl
  · split
    · rfl
    · split
      · rfl
      · rfl

/-- Reading a slot that stores the serialization of a document returns
that document. -/
theorem getCachedTheme_stored (env : Env) (s : SysState) (v : Js)
    (hg : env.getItemOk = true) (hc : s.themeCache = some (jsonStringify v)) :
    getCachedTheme env s = v := by
  unfold getCachedTheme
  rw [hg, hc]
  simp [jsonStringify_ne_empty v, jsonParse_stringify v]

/-- Reading an empty cache slot returns `null`. -/
theorem getCachedTheme_empty (env : Env) (s : SysState) (hc : s.themeCache = none) :
    getCachedTheme env s = Js.null := by
  unfold getCachedTheme
  rw [hc]
  split <;> rfl

/-- The conditions under which `fetchTheme`'s try-block throws and control
reaches its catch block: `initialize` rethrows, `fetchAndActivate`
rejects, or `JSON.parse` of the remote string throws. -/
def remoteFetchFails (env : Env) (s : SysState) : Prop :=
  (initializeService env s).1 = Except.error () ∨
  env.fetchAndActivateOk = false ∨
  jsonParse (remoteGetString env (initializeService env s).2) = none

/-- On any failure path, `fetchTheme` resolves to the cached-theme read
and performs no cache write. -/
theorem fetchTheme_fallback (env : Env) (s : SysState) (h : remoteFetchFails env s) :
    fetchTheme env s = (getCachedTheme env s, (initializeService env s).2) := by
  have htc := initializeService_themeCache env s
  have hgc := getCachedTheme_congr env (initializeService env s).2 s htc
  have h2 : (initializeService env s).1 = Except.error () ∨
      env.fetchAndActivateOk = false ∨
      jsonParse (remoteGetString env (initializeService env s).2) = none := h
  unfold fetchTheme
  rcases hinit : initializeService env s with ⟨r, s1⟩
  rw [hinit] at hgc h2
  cases r with
  | error e => simp [hgc]
  | ok u =>
    rcases h2 with h2 | h2 | h2
    · simp at h2
    · simp [h2, hgc]
    · by_cases hf : env.fetchAndActivateOk = false
      · simp [hf, hgc]
      · simp [hf, h2, hgc]

/-- On the success path, `fetchTheme` returns the parsed remote document
and writes it through to the cache. -/
theorem fetchTheme_success (env : Env) (s : SysState) (v : Js)
    (h1 : (initializeService env s).1 = Except.ok ())
    (h2 : env.fetchAndActivateOk = true)
    (h3 : jsonParse (remoteGetString env (initializeService env s).2) = some v) :
    fetchTheme env s = (v, cacheTheme env (initializeService env s).2 v) := by
  unfold fetchTheme
  rcases hinit : initializeService env s with ⟨r, s1⟩
  rw [hinit] at h1 h3
  cases r with
  | error e => simp at h1
  | ok u =>
    simp [h2, h3]

/-- A failed initialization leaves the state untouched, and can only
happen with the flag still unset. -/
theorem initializeService_error (env : Env) (s : SysState)
    (h : (initializeService env s).1 = Except.error ()) :
    (initializeService env s).2 = s ∧ s.initialized = false := by
  unfold initializeService at h ⊢
  by_cases hi : s.initialized
  · rw [if_pos hi] at h
    simp at h
  · rw [if_neg hi] at h ⊢
    refine ⟨?_, by simpa using hi⟩
    by_cases hc : env.setConfigSettingsOk = false
    · rw [if_pos hc]
    · rw [if_neg hc] at h ⊢
      by_cases hd : env.setDefaultsOk = false
      · rw [if_pos hd]
      · rw [if_neg hd] at h
        simp at h

/-- A not-yet-initialized call with working remote operations seeds the
remote default with the serialization of the cached-theme read and sets
the flag. -/
theorem initializeService_seeds (env : Env) (s : SysState)
    (h1 : s.initialized = false)
    (h2 : env.setConfigSettingsOk = true) (h3 : env.setDefaultsOk = true) :
    initializeService env s =
      (Except.ok (),
        { s with remoteDefaults := some (jsonStringify (getCachedTheme env s)),
                 initialized := true }) := by
  unfold initializeService
  rw [if_neg (by rw [h1]; simp), if_neg (by rw [h2]; simp), if_neg (by rw [h3]; simp)]

end RemoteConfigService

/-! ## Interleaving model of concurrent `initialize()` calls

The body of `initialize` has three await points: `setConfigSettings`,
`AsyncStorage.getItem` (inside `getCachedTheme`), and `setDefaults`.
Between awaits the JavaScript event loop runs each continuation
atomically, so one in-flight call is a task whose program counter sits at
one of four atomic segments:

1. entry: check `this.initialized`; if set, resolve immediately;
   otherwise start `setConfigSettings`;
2. after `setConfigSettings` resolves: start the cached-theme read;
3. after the read resolves: execute `setDefaults` — the one-time seeding
   side effect the claim counts;
4. after `setDefaults` resolves: set `this.initialized := true` and
   resolve.

Tasks are interchangeable, so the system state tracks how many tasks sit
at each stage, the flag, and how many times the seeding segment ran. All
external calls are taken to succeed (the claim concerns the success
path). -/

/-- Counts of in-flight `initialize()` tasks at each await point, plus the
`initialized` flag and the number of seeding executions. -/
structure InitPool where
  flag : Bool
  seedCount : Nat
  atEntry : Nat
  atCfg : Nat
  atCache : Nat
  atSeed : Nat
  tasksDone : Nat
deriving DecidableEq, Repr

/-- A scheduler choice: which kind of pending continuation to run next. -/
inductive InitStepKind where
  | entry : InitStepKind
  | cfgDone : InitStepKind
  | cacheDone : InitStepKind
  | seedDone : InitStepKind
deriving DecidableEq, Repr

/-- One atomic segment of one task (no-op if no task waits there). -/
def initStep (p : InitPool) : InitStepKind → InitPool
  | .entry =>
    if p.atEntry = 0 then p
    else if p.flag then { p with atEntry := p.atEntry - 1, tasksDone := p.tasksDone + 1 }
    else { p with atEntry := p.atEntry - 1, atCfg := p.atCfg + 1 }
  | .cfgDone =>
    if p.atCfg = 0 then p
    else { p with atCfg := p.atCfg - 1, atCache := p.atCache + 1 }
  | .cacheDone =>
    if p.atCache = 0 then p
    else { p with atCache := p.atCache - 1, atSeed := p.atSeed + 1,
                  seedCount := p.seedCount + 1 }
  | .seedDone =>
    if p.atSeed = 0 then p
    else { p with atSeed := p.atSeed - 1, tasksDone := p.tasksDone + 1, flag := true }

/-- Runs a schedule of segment choices. -/
def runInit (p : InitPool) : List InitStepKind → InitPool
  | [] => p
  | st :: rest => runInit (initStep p st) rest

/-- N concurrent `initialize()` calls, none started yet, flag clear. -/
def initPool (n : Nat) : InitPool := ⟨false, 0, n, 0, 0, 0, 0⟩

/-- The schedule in which all N calls pass the `initialized` check before
any of them completes, then all run to completion. -/
def concSchedule (n : Nat) : List InitStepKind :=
  List.replicate n .entry ++ List.replicate n .cfgDone ++
    List.replicate n .cacheDone ++ List.replicate n .seedDone

theorem runInit_append (p : InitPool) (l1 l2 : List InitStepKind) :
    runInit p (l1 ++ l2) = runInit (runInit p l1) l2 := by
  induction l1 generalizing p with
  | nil => rfl
  | cons st rest ih => simp [runInit, ih]

theorem runInit_entries (k : Nat) :
    ∀ sc e c g sd d : Nat, k ≤ e →
      runInit ⟨false, sc, e, c, g, sd, d⟩ (List.replicate k .entry)
        = ⟨false, sc, e - k, c + k, g, sd, d⟩ := by
  induction k with
  | zero => intro sc e c g sd d _; rfl
  | succ k ih =>
    intro sc e c g sd d hk
    rw [List.replicate_succ]
    have he : e ≠ 0 := by omega
    show runInit (initStep ⟨false, sc, e, c, g, sd, d⟩ .entry) (List.replicate k .entry) = _
    rw [show initStep ⟨false, sc, e, c, g, sd, d⟩ .entry
        = ⟨false, sc, e - 1, c + 1, g, sd, d⟩ by simp [initStep, he]]
    rw [ih sc (e - 1) (c + 1) g sd d (by omega)]
    have h1 : e - 1 - k = e - (k + 1) := by omega
    have h2 : c + 1 + k = c + (k + 1) := by omega
    rw [h1, h2]

theorem runInit_cfgs (k : Nat) :
    ∀ sc c g sd d : Nat, k ≤ c →
      runInit ⟨false, sc, 0, c, g, sd, d⟩ (List.replicate k .cfgDone)
        = ⟨false, sc, 0, c - k, g + k, sd, d⟩ := by
  induction k with
  | zero => intro sc c g sd d _; rfl
  | succ k ih =>
    intro sc c g sd d hk
    rw [List.replicate_succ]
    have hc : c ≠ 0 := by omega
    show runInit (initStep ⟨false, sc, 0, c, g, sd, d⟩ .cfgDone) (List.replicate k .cfgDone) = _
    rw [show initStep ⟨false, sc, 0, c, g, sd, d⟩ .cfgDone
        = ⟨false, sc, 0, c - 1, g + 1, sd, d⟩ by simp [initStep, hc]]
    rw [ih sc (c - 1) (g + 1) sd d (by omega)]
    have h1 : c - 1 - k = c - (k + 1) := by omega
    have h2 : g + 1 + k = g + (k + 1) := by omega
    rw [h1, h2]

theorem runInit_caches (k : Nat) :
    ∀ sc g sd d : Nat, k ≤ g →
      runInit ⟨false, sc, 0, 0, g, sd, d⟩ (List.replicate k .cacheDone)
        = ⟨false, sc + k, 0, 0, g - k, sd + k, d⟩ := by
  induction k with
  | zero => intro sc g sd d _; rfl
  | succ k ih =>
    intro sc g sd d hk
    rw [List.replicate_succ]
    have hg : g ≠ 0 := by omega
    show runInit (initStep ⟨false, sc, 0, 0, g, sd, d⟩ .cacheDone)
        (List.replicate k .cacheDone) = _
    rw [show initStep ⟨false, sc, 0, 0, g, sd, d⟩ .cacheDone
        = ⟨false, sc + 1, 0, 0, g - 1, sd + 1, d⟩ by simp [initStep, hg]]
    rw [ih (sc + 1) (g - 1) (sd + 1) d (by omega)]
    have h1 : sc + 1 + k = sc + (k + 1) := by omega
    have h2 : g - 1 - k = g - (k + 1) := by omega
    have h3 : sd + 1 + k = sd + (k + 1) := by omega
    rw [h1, h2, h3]

theorem runInit_seeds (k : Nat) :
    ∀ (b : Bool) (sc sd d : Nat), k ≤ sd →
      runInit ⟨b, sc, 0, 0, 0, sd, d⟩ (List.replicate k .seedDone)
        = ⟨(if k = 0 then b else true), sc, 0, 0, 0, sd - k, d + k⟩ := by
  induction k with
  | zero =>
    intro b sc sd d _
    rfl
  | succ k ih =>
    intro b sc sd d hk
    rw [List.replicate_succ]
    have hsd : sd ≠ 0 := by omega
    show runInit (initStep ⟨b, sc, 0, 0, 0, sd, d⟩ .seedDone)
        (List.replicate k .seedDone) = _
    rw [show initStep ⟨b, sc, 0, 0, 0, sd, d⟩ .seedDone
        = ⟨true, sc, 0, 0, 0, sd - 1, d + 1⟩ by simp [initStep, hsd]]
    rw [ih true sc (sd - 1) (d + 1) (by omega)]
    have h1 : sd - 1 - k = sd - (k + 1) := by omega
    have h2 : d + 1 + k = d + (k + 1) := by omega
    rw [h1, h2]
    simp

/-- Claim C9 (amended): when N concurrent `initialize()` calls all pass
the `initialized` check before any of them completes, every call executes
the seeding segment — the side effect runs N times, once per caller, and
all N calls resolve. The code shares no in-flight attempt; only a call
that starts after a completed one is a no-op. -/
theorem C9_amended (n : Nat) :
    (runInit (initPool n) (concSchedule n)).seedCount = n ∧
    (runInit (initPool n) (concSchedule n)).tasksDone = n := by
  unfold initPool concSchedule
  rw [runInit_append, runInit_append, runInit_append]
  rw [runInit_entries n 0 n 0 0 0 0 le_rfl]
  rw [show n - n = 0 from by omega, show 0 + n = n from by omega]
  rw [runInit_cfgs n 0 n 0 0 0 le_rfl]
  rw [show n - n = 0 from by omega, show 0 + n = n from by omega]
  rw [runInit_caches n 0 n 0 0 le_rfl]
  rw [show n - n = 0 from by omega, show 0 + n = n from by omega]
  rw [runInit_seeds n _ _ _ _ le_rfl]
  rw [show n - n = 0 from by omega, show 0 + n = n from by omega]
  exact ⟨rfl, rfl⟩

/-! ## The claims -/

open RemoteConfigService

/-- Claim C1 (counterexample): with working storage, an empty cache, and a
remote fetch that rejects, `fetchTheme` resolves to `null`, which is not a
structurally valid Theme — refuting "always resolves to a structurally
valid Theme". -/
theorem C1_counterexample :
    (fetchTheme ⟨true, true, false, none, true, true⟩ ⟨false, none, none⟩).1 = Js.null ∧
    jsToTheme? (fetchTheme ⟨true, true, false, none, true, true⟩
      ⟨false, none, none⟩).1 = none :=
  ⟨rfl, rfl⟩

/-- Claim C1 (amended): for every environment and state, `fetchTheme`
resolves (it is total — never throws or rejects outward), and the resolved
value is either the cache-fallback read (which may be `null` and is never
validated) or the document parsed from the remote string (cached and
returned without schema validation). -/
theorem C1_amended (env : Env) (s : SysState) :
    (fetchTheme env s).1 = getCachedTheme env s ∨
    jsonParse (remoteGetString env (initializeService env s).2)
      = some (fetchTheme env s).1 := by
  by_cases h1 : (initializeService env s).1 = Except.error ()
  · left
    rw [fetchTheme_fallback env s (Or.inl h1)]
  · by_cases h2 : env.fetchAndActivateOk = false
    · left
      rw [fetchTheme_fallback env s (Or.inr (Or.inl h2))]
    · rcases hp : jsonParse (remoteGetString env (initializeService env s).2) with _ | v
      · left
        rw [fetchTheme_fallback env s (Or.inr (Or.inr hp))]
      · right
        have hok : (initializeService env s).1 = Except.ok () := by
          rcases hr : (initializeService env s).1 with e | u
          · cases e
            exact absurd hr h1
          · cases u
            rfl
        have hf : env.fetchAndActivateOk = true := by
          cases hb : env.fetchAndActivateOk
          · exact absurd hb h2
          · rfl
        rw [fetchTheme_success env s v hok hf hp]

/-- Claim C2 (counterexample): remote fetch rejects and the cache is
empty; `fetchTheme` resolves to `null`, not to `DEFAULT_THEME` — refuting
"resolves to the hardcoded DefaultTheme constant". -/
theorem C2_counterexample :
    (fetchTheme ⟨true, true, false, none, true, true⟩ ⟨false, none, none⟩).1 = Js.null ∧
    Js.null ≠ themeToJs DEFAULT_THEME := by
  refine ⟨rfl, ?_⟩
  intro h
  simp [themeToJs] at h

/-- Claim C2 (amended): if the remote fetch path fails and the cache holds
no record, `fetchTheme` resolves to `null`; the substitution of
`DEFAULT_THEME` for a falsy result happens one layer up, in
`ThemeProvider.refreshTheme`, not in the service. -/
theorem C2_amended (env : Env) (s : SysState) (hfail : remoteFetchFails env s)
    (hc : s.themeCache = none) :
    (fetchTheme env s).1 = Js.null := by
  rw [fetchTheme_fallback env s hfail]
  exact getCachedTheme_empty env s hc

/-- Claim C2 (witness for the amended theorem). -/
theorem C2_witness :
    (fetchTheme ⟨true, true, false, some "x", true, true⟩ ⟨false, none, none⟩).1
      = Js.null :=
  C2_amended ⟨true, true, false, some "x", true, true⟩ ⟨false, none, none⟩
    (Or.inr (Or.inl rfl)) rfl

/-- Claim C3 (counterexample): the remote returns `"{}"` — parseable JSON
that violates the Theme schema; `fetchTheme` both writes it into the cache
and returns it, refuting "a schema-violating document is never written
into the ConfigCache and never returned". -/
theorem C3_counterexample :
    (fetchTheme ⟨true, true, true, some "\x7b\x7d", true, true⟩
      ⟨false, none, none⟩).1 = Js.obj [] ∧
    (fetchTheme ⟨true, true, true, some "\x7b\x7d", true, true⟩
      ⟨false, none, none⟩).2.themeCache = some "\x7b\x7d" ∧
    jsToTheme? (Js.obj []) = none :=
  ⟨rfl, rfl, rfl⟩

/-- Claim C3 (amended): only a raw value that fails to parse as JSON is
handled as a fetch failure — the cache slot is left unchanged and the
cache fallback is returned; a parseable document is cached and returned
with no schema validation at all. -/
theorem C3_amended (env : Env) (s : SysState) (r : String)
    (hact : env.activatedValue = some r)
    (hinit : (initializeService env s).1 = Except.ok ())
    (hfetch : env.fetchAndActivateOk = true)
    (hparse : jsonParse r = none) :
    (fetchTheme env s).2.themeCache = s.themeCache ∧
    (fetchTheme env s).1 = getCachedTheme env s := by
  have hrs : remoteGetString env (initializeService env s).2 = r := by
    unfold remoteGetString
    rw [hact]
  rw [fetchTheme_fallback env s (Or.inr (Or.inr (by rw [hrs, hparse])))]
  exact ⟨initializeService_themeCache env s, rfl⟩

/-- Claim C3 (witness for the amended theorem). -/
theorem C3_witness :
    (fetchTheme ⟨true, true, true, some "\x7b", true, true⟩
      ⟨false, none, none⟩).2.themeCache = (⟨false, none, none⟩ : SysState).themeCache ∧
    (fetchTheme ⟨true, true, true, some "\x7b", true, true⟩ ⟨false, none, none⟩).1
      = getCachedTheme ⟨true, true, true, some "\x7b", true, true⟩ ⟨false, none, none⟩ :=
  C3_amended ⟨true, true, true, some "\x7b", true, true⟩ ⟨false, none, none⟩ "\x7b"
    rfl rfl rfl rfl

/-- Claim C4 (counterexample): on a first call with an empty cache,
`initialize` seeds the remote default with the four-character JSON text
`"null"` (the serialization of the `null` read from the empty cache), not
with the serialization of `DEFAULT_THEME` — refuting "seeds with the
hardcoded DefaultTheme constant when the ConfigCache is empty". -/
theorem C4_counterexample :
    (initializeService ⟨true, true, true, none, true, true⟩
      ⟨false, none, none⟩).2.remoteDefaults = some "null" ∧
    some "null" ≠ some (jsonStringify (themeToJs DEFAULT_THEME)) := by
  refine ⟨rfl, ?_⟩
  intro h
  have h4 : ("null" : String) = jsonStringify (themeToJs DEFAULT_THEME) := by
    injection h
  have h2 : ("null" : String).data = (jsonStringify (themeToJs DEFAULT_THEME)).data := by
    rw [h4]
  have h3 : (jsonStringify (themeToJs DEFAULT_THEME)).data
      = '{' :: (stringifyMembers
          [("colors", Js.obj
              [("primary", Js.str DEFAULT_THEME.colors.primary),
               ("secondary", Js.str DEFAULT_THEME.colors.secondary),
               ("background", Js.str DEFAULT_THEME.colors.background),
               ("surface", Js.str DEFAULT_THEME.colors.surface),
               ("text", Js.str DEFAULT_THEME.colors.text),
               ("textSecondary", Js.str DEFAULT_THEME.colors.textSecondary),
               ("error", Js.str DEFAULT_THEME.colors.error),
               ("success", Js.str DEFAULT_THEME.colors.success),
               ("warning", Js.str DEFAULT_THEME.colors.warning)]),
           ("typography", Js.obj
              [("fontFamily", Js.str DEFAULT_THEME.typography.fontFamily),
               ("fontSize", Js.obj
                  [("small", Js.num DEFAULT_THEME.typography.fontSize.small),
                   ("medium", Js.num DEFAULT_THEME.typography.fontSize.medium),
                   ("large", Js.num DEFAULT_THEME.typography.fontSize.large),
                   ("xlarge", Js.num DEFAULT_THEME.typography.fontSize.xlarge)]),
               ("fontWeight", Js.obj
                  [("regular", Js.str DEFAULT_THEME.typography.fontWeight.regular),
                   ("medium", Js.str DEFAULT_THEME.typography.fontWeight.medium),
                   ("bold", Js.str DEFAULT_THEME.typography.fontWeight.bold)])]),
           ("spacing", Js.obj
              [("xs", Js.num DEFAULT_THEME.spacing.xs),
               ("sm", Js.num DEFAULT_THEME.spacing.sm),
               ("md", Js.num DEFAULT_THEME.spacing.md),
               ("lg", Js.num DEFAULT_THEME.spacing.lg),
               ("xl", Js.num DEFAULT_THEME.spacing.xl)])] ++ ['}']) := rfl
  rw [h3] at h2
  simp at h2

/-- Claim C4 (amended): a first, not-yet-initialized call with working
remote operations seeds the remote default for the theme key with
`JSON.stringify` of the cached-theme read: the cached Theme's JSON when
the cache holds one (see the cache lemmas), and the JSON text `"null"`
when the cache is empty. -/
theorem C4_amended (env : Env) (s : SysState) (h1 : s.initialized = false)
    (h2 : env.setConfigSettingsOk = true) (h3 : env.setDefaultsOk = true) :
    (initializeService env s).2.remoteDefaults
      = some (jsonStringify (getCachedTheme env s)) ∧
    (initializeService env s).2.initialized = true := by
  rw [initializeService_seeds env s h1 h2 h3]
  exact ⟨rfl, rfl⟩

/-- Claim C4 (witness for the amended theorem). -/
theorem C4_witness :
    (initializeService ⟨true, true, true, none, true, true⟩
      ⟨false, none, none⟩).2.remoteDefaults
      = some (jsonStringify (getCachedTheme ⟨true, true, true, none, true, true⟩
          ⟨false, none, none⟩)) ∧
    (initializeService ⟨true, true, true, none, true, true⟩
      ⟨false, none, none⟩).2.initialized = true :=
  C4_amended ⟨true, true, true, none, true, true⟩ ⟨false, none, none⟩ rfl rfl rfl

/-- Claim C5 (confirmed): if the remote fetch path fails and the cache
holds the serialization of a Theme C, `fetchTheme` resolves to a value
structurally equal to C. -/
theorem C5_theorem (env : Env) (s : SysState) (C : Theme)
    (hfail : remoteFetchFails env s) (hg : env.getItemOk = true)
    (hc : s.themeCache = some (jsonStringify (themeToJs C))) :
    (fetchTheme env s).1 = themeToJs C := by
  rw [fetchTheme_fallback env s hfail]
  exact getCachedTheme_stored env s (themeToJs C) hg hc

/-- Claim C5 (witness). -/
theorem C5_witness :
    (fetchTheme ⟨true, true, false, none, true, true⟩
      ⟨false, none, some (jsonStringify (themeToJs DEFAULT_THEME))⟩).1
      = themeToJs DEFAULT_THEME :=
  C5_theorem ⟨true, true, false, none, true, true⟩
    ⟨false, none, some (jsonStringify (themeToJs DEFAULT_THEME))⟩ DEFAULT_THEME
    (Or.inr (Or.inl rfl)) rfl rfl

/-- Claim C6 (confirmed): for every valid Theme T, writing T to the cache
(`cacheTheme`, which stores `JSON.stringify` of it) and then immediately
reading (`getCachedTheme`, which parses the stored string) returns a value
structurally equal to T — the serialize→store→deserialize round trip is
lossless. -/
theorem C6_theorem (env : Env) (s : SysState) (T : Theme)
    (h1 : env.setItemOk = true) (h2 : env.getItemOk = true) :
    getCachedTheme env (cacheTheme env s (themeToJs T)) = themeToJs T := by
  have hc : (cacheTheme env s (themeToJs T)).themeCache
      = some (jsonStringify (themeToJs T)) := by
    unfold cacheTheme
    rw [h1]
    simp
  exact getCachedTheme_stored env _ (themeToJs T) h2 hc

/-- Claim C6 (witness). -/
theorem C6_witness :
    getCachedTheme ⟨true, true, true, none, true, true⟩
      (cacheTheme ⟨true, true, true, none, true, true⟩ ⟨false, none, none⟩
        (themeToJs DEFAULT_THEME)) = themeToJs DEFAULT_THEME :=
  C6_theorem ⟨true, true, true, none, true, true⟩ ⟨false, none, none⟩ DEFAULT_THEME
    rfl rfl

/-- Claim C7 (confirmed): if the cache holds a Theme A and the remote
returns a string that is not parseable JSON, `fetchTheme` resolves to A
and the cache slot is left unchanged — no write occurs on the failure
path. -/
theorem C7_theorem (env : Env) (s : SysState) (A : Theme)
    (hinit : (initializeService env s).1 = Except.ok ())
    (hfetch : env.fetchAndActivateOk = true)
    (hparse : jsonParse (remoteGetString env (initializeService env s).2) = none)
    (hg : env.getItemOk = true)
    (hc : s.themeCache = some (jsonStringify (themeToJs A))) :
    (fetchTheme env s).1 = themeToJs A ∧
    (fetchTheme env s).2.themeCache = s.themeCache := by
  rw [fetchTheme_fallback env s (Or.inr (Or.inr hparse))]
  exact ⟨getCachedTheme_stored env s _ hg hc, initializeService_themeCache env s⟩

/-- Claim C7 (witness). -/
theorem C7_witness :
    (fetchTheme ⟨true, true, true, some "\x7b", true, true⟩
      ⟨true, none, some (jsonStringify (themeToJs DEFAULT_THEME))⟩).1
      = themeToJs DEFAULT_THEME ∧
    (fetchTheme ⟨true, true, true, some "\x7b", true, true⟩
      ⟨true, none, some (jsonStringify (themeToJs DEFAULT_THEME))⟩).2.themeCache
      = (⟨true, none, some (jsonStringify (themeToJs DEFAULT_THEME))⟩ : SysState).themeCache :=
  C7_theorem ⟨true, true, true, some "\x7b", true, true⟩
    ⟨true, none, some (jsonStringify (themeToJs DEFAULT_THEME))⟩ DEFAULT_THEME
    rfl rfl rfl rfl rfl

/-- Claim C8 (confirmed): if `initialize` fails at any step of reaching or
seeding the remote source, it rethrows with the whole state unchanged — in
particular the `initialized` flag stays false (a failing call is only
possible when it was false), so a later call re-runs the full setup. -/
theorem C8_theorem (env : Env) (s : SysState)
    (h : (initializeService env s).1 = Except.error ()) :
    (initializeService env s).2 = s ∧ s.initialized = false :=
  initializeService_error env s h

/-- Claim C8 (witness): `setConfigSettings` rejects on a fresh state. -/
theorem C8_witness :
    (initializeService ⟨false, true, true, none, true, true⟩
      ⟨false, none, none⟩).2 = (⟨false, none, none⟩ : SysState) ∧
    (⟨false, none, none⟩ : SysState).initialized = false :=
  C8_theorem ⟨false, true, true, none, true, true⟩ ⟨false, none, none⟩ rfl

/-- Claim C9 (counterexample): two concurrent `initialize()` calls that
both pass the `initialized` check before either completes each perform the
seeding side effect — it runs twice, not exactly once, and both calls
resolve. -/
theorem C9_counterexample :
    (runInit (initPool 2) (concSchedule 2)).seedCount = 2 ∧
    (runInit (initPool 2) (concSchedule 2)).tasksDone = 2 ∧ (2 : Nat) ≠ 1 :=
  ⟨rfl, rfl, by decide⟩

/-- Claim C10 (confirmed): whenever `fetchTheme` resolves to a falsy value
(`null`, `false`, `0`, or `""`), `ThemeProvider.refreshTheme` substitutes
`DEFAULT_THEME` as the current theme and finishes with `error` still null
and `isLoading` false — the provider, not the service, guarantees
observers a fully-populated Theme in the non-error state. -/
theorem C10_theorem (env : Env) (p : ProviderState) (s : SysState)
    (h : jsTruthy (fetchTheme env s).1 = false) :
    (refreshTheme env p s).1.theme = themeToJs DEFAULT_THEME ∧
    (refreshTheme env p s).1.error = none ∧
    (refreshTheme env p s).1.isLoading = false := by
  unfold refreshTheme
  rcases hf : fetchTheme env s with ⟨v, s1⟩
  rw [hf] at h
  simp only at h
  simp [h]

/-- Claim C10 (witness): the fetch fails with an empty cache, so the
resolved value is `null` (falsy) and the provider installs
`DEFAULT_THEME`. -/
theorem C10_witness :
    (refreshTheme ⟨true, true, false, none, true, true⟩ initialProviderState
      ⟨false, none, none⟩).1.theme = themeToJs DEFAULT_THEME ∧
    (refreshTheme ⟨true, true, false, none, true, true⟩ initialProviderState
      ⟨false, none, none⟩).1.error = none ∧
    (refreshTheme ⟨true, true, false, none, true, true⟩ initialProviderState
      ⟨false, none, none⟩).1.isLoading = false :=
  C10_theorem ⟨true, true, false, none, true, true⟩ initialProviderState
    ⟨false, none, none⟩ rfl
